import Mathlib

/-!
Verification development for the iAuditor exporter sync/export pipeline
(`exporter.py`).

The definitions below are a shallow embedding of the functions of
`exporter.py` that the verified properties are about:

* `check_if_media_sync_offset_satisfied` — the media-readiness gate
  (exporter.py lines 1025-1045).  Timestamps are modelled as integers
  (seconds); the source compares a `timedelta` against
  `timedelta(seconds=offset)` exactly, which the integer comparison mirrors.
* `get_media_from_audit` — the media locator (lines 1398-1430).
* `parse_export_filename` / the `or audit_id` fallback of `process_audit`
  line 1066 — export filename resolution (lines 586-608).
* `export_audit_sql` — the tabular sink writer with its
  `OperationalError` / `IntegrityError` handlers (lines 1247-1287).
  The database session is modelled as a list of rows with primary keys;
  `bulk_insert_mappings` raises an integrity conflict exactly when some
  inserted key already exists (or is duplicated in the batch), and
  `session.merge` is the per-row upsert.
* `sql_setup` (lines 1156-1244) — only its control flow: it either returns
  a completed setup or calls `sys.exit` (modelled as `none`).
* `sync_exports` / `process_audit` / `update_sync_marker_file`
  (lines 961-1094, 518-527) — the per-pass dispatch loop and the audit
  watermark.  Exceptions escaping a format exporter are modelled by an
  explicit per-format outcome (`FormatOutcome.exn`); the audit watermark
  is an integer state threaded through the pass.  The actions formats and
  the `pickle`-file pre-check of `sync_exports` are orthogonal to the
  audit watermark and are not part of this model.
* `export_actions` / `update_actions_sync_marker_file` /
  `save_exported_actions_to_csv_file` (lines 940-958, 552-563, 418-445)
  — the actions sibling pipeline and its own sync marker.
-/

namespace Exporter

/-! ## Audit document data model -/

/-- A media descriptor: `media_id` plus the optional `file_ext` key. -/
structure MediaRef where
  media_id : String
  file_ext : Option String
deriving DecidableEq, Repr

/-- The `responses` object of an item, restricted to the keys the embedded
functions read: `text` (filename resolution) and `image` (media locator). -/
structure Responses where
  text : Option String
  image : Option MediaRef
deriving DecidableEq, Repr

/-- The `options` object of an item, restricted to the `media` key. -/
structure ItemOptions where
  media : Option MediaRef
deriving DecidableEq, Repr

/-- One audit item.  `Option` models presence of the corresponding JSON key. -/
structure Item where
  item_id : String
  media : Option (List MediaRef)
  responses : Option Responses
  options : Option ItemOptions
deriving DecidableEq, Repr

/-- The `audit_data` object, restricted to the optional `name` key. -/
structure AuditData where
  name : Option String
deriving DecidableEq, Repr

/-- An audit document as read by the embedded functions. -/
structure AuditJson where
  audit_id : String
  template_id : String
  header_items : List Item
  items : List Item
  audit_data : Option AuditData
deriving DecidableEq, Repr

/-! ## Media-readiness gate (exporter.py lines 1025-1045)

`check_if_media_sync_offset_satisfied` computes
`elapsed = now - modified_at` and returns `False`
(skip the audit this pass) when `not elapsed > timedelta(seconds=offset)`,
i.e. exactly when `elapsed ≤ offset`. -/

/-- Embedding of `check_if_media_sync_offset_satisfied`: `true` means the
audit is ready to export, `false` means it is skipped for this pass. -/
def check_if_media_sync_offset_satisfied (offset now modified_at : Int) : Bool :=
  if now - modified_at > offset then true else false

/-! ## Media locator (exporter.py lines 1398-1430) -/

/-- One `[media['media_id'], file_ext]` entry of `get_media_from_audit`,
with the `if 'file_ext' in media.keys(): ... else: 'jpg'` default that the
source repeats for each of the three scan sites. -/
def mediaEntry (m : MediaRef) : String × String :=
  (m.media_id, match m.file_ext with | some e => e | none => "jpg")

/-- Loop body of `get_media_from_audit`: the three `if` blocks that scan one
item for (a) its `media` collection, (b) `responses.image`,
(c) `options.media`, appending one entry per reference. -/
def media_loop_body (acc : List (String × String)) (item : Item) :
    List (String × String) :=
  let acc1 :=
    match item.media with
    | some ms => acc ++ ms.map mediaEntry
    | none => acc
  let acc2 :=
    match item.responses with
    | some r =>
        match r.image with
        | some img => acc1 ++ [mediaEntry img]
        | none => acc1
    | none => acc1
  match item.options with
  | some o =>
      match o.media with
      | some m => acc2 ++ [mediaEntry m]
      | none => acc2
  | none => acc2

/-- Embedding of `get_media_from_audit`: scan `header_items ++ items` in
document order, accumulating media entries. -/
def get_media_from_audit (audit_json : AuditJson) : List (String × String) :=
  (audit_json.header_items ++ audit_json.items).foldl media_loop_body []

/-- Spec-side form of one media entry: the media id paired with its
extension, defaulting to `jpg` when the descriptor omits one. -/
def mediaEntrySpec (m : MediaRef) : String × String :=
  (m.media_id, m.file_ext.getD "jpg")

/-- Spec-side description of the entries contributed by a single item:
one entry per reference in its `media` collection, its `responses.image`
descriptor and its `options.media` descriptor, in that order. -/
def itemMediaSpec (it : Item) : List (String × String) :=
  (match it.media with
   | some ms => ms.map mediaEntrySpec
   | none => [])
  ++ (match it.responses with
      | some r =>
          match r.image with
          | some img => [mediaEntrySpec img]
          | none => []
      | none => [])
  ++ (match it.options with
      | some o =>
          match o.media with
          | some m => [mediaEntrySpec m]
          | none => []
      | none => [])

lemma mediaEntry_eq_spec : mediaEntry = mediaEntrySpec := by
  funext m
  cases h : m.file_ext <;> simp [mediaEntry, mediaEntrySpec, h]

lemma media_loop_body_eq (acc : List (String × String)) (it : Item) :
    media_loop_body acc it = acc ++ itemMediaSpec it := by
  obtain ⟨id, m, r, o⟩ := it
  rcases m with _ | ms <;>
    rcases r with _ | ⟨tx, img⟩ <;>
      rcases o with _ | ⟨om⟩ <;>
        (try rcases img with _ | imgv) <;>
          (try rcases om with _ | omv) <;>
            simp [media_loop_body, itemMediaSpec, mediaEntry_eq_spec,
              List.append_assoc]

lemma foldl_media_loop_body (l : List Item) :
    ∀ acc, l.foldl media_loop_body acc = acc ++ (l.map itemMediaSpec).flatten := by
  induction l with
  | nil => intro acc; simp
  | cons it rest ih =>
      intro acc
      simp [List.foldl_cons, ih, media_loop_body_eq, List.append_assoc]

/-! ## Export filename resolution (exporter.py lines 586-608 and 1066)

`parse_export_filename` special-cases the well-known audit-title item id,
otherwise scans `header_items` for the configured item id; `process_audit`
line 1066 applies the Python truthiness fallback
`parse_export_filename(...) or audit_id`. -/

/-- The well-known audit-title item id (`AUDIT_TITLE_ITEM_ID`). -/
def AUDIT_TITLE_ITEM_ID : String := "f3245d40-ea77-11e1-aff1-0800200c9a66"

/-- Embedding of Python `s.replace('/', '_')`: a single-character pattern
and replacement, so every `/` character becomes `_`. -/
def pyReplaceSlash (s : String) : String :=
  ⟨s.data.map (fun c => if c = '/' then '_' else c)⟩

/-- Embedding of Python `s.strip()`: drop leading and trailing whitespace. -/
def pyStrip (s : String) : String :=
  ⟨((s.data.dropWhile Char.isWhitespace).reverse.dropWhile
      Char.isWhitespace).reverse⟩

/-- The `for item in audit_json['header_items']` loop of
`parse_export_filename`: return the first matching item's `responses.text`
when it is present and non-blank, otherwise keep scanning. -/
def findFilenameInHeader (fid : String) : List Item → Option String
  | [] => none
  | item :: rest =>
      if item.item_id = fid then
        match item.responses with
        | some r =>
            match r.text with
            | some t =>
                if pyStrip t ≠ "" then some t else findFilenameInHeader fid rest
            | none => findFilenameInHeader fid rest
        | none => findFilenameInHeader fid rest
      else findFilenameInHeader fid rest

/-- Embedding of `parse_export_filename`. -/
def parse_export_filename (audit_json : AuditJson)
    (filename_item_id : Option String) : Option String :=
  match filename_item_id with
  | none => none
  | some fid =>
      if fid = AUDIT_TITLE_ITEM_ID then
        match audit_json.audit_data with
        | some ad =>
            match ad.name with
            | some n => some (pyReplaceSlash n)
            | none => findFilenameInHeader fid audit_json.header_items
        | none => findFilenameInHeader fid audit_json.header_items
      else findFilenameInHeader fid audit_json.header_items

/-- Embedding of `process_audit` line 1066:
`export_filename = parse_export_filename(audit_json, settings[FILENAME_ITEM_ID]) or audit_id`.
Python `or` treats both `None` and the empty string as falsy. -/
def resolveExportFilename (audit_json : AuditJson) (fid : Option String) :
    String :=
  match parse_export_filename audit_json fid with
  | some s => if s = "" then audit_json.audit_id else s
  | none => audit_json.audit_id

/-- The `audit_data.name` value of a document, when the key chain exists. -/
def auditName (D : AuditJson) : Option String :=
  match D.audit_data with
  | some ad => ad.name
  | none => none

/-- Boolean test used by the spec-side header scan: the item matches the
configured id and carries a non-blank `responses.text`. -/
def itemTitleOk (fid : String) (it : Item) : Bool :=
  it.item_id == fid &&
    (match it.responses with
     | some r =>
         match r.text with
         | some t => !(pyStrip t == "")
         | none => false
     | none => false)

/-- Spec-side header scan: the `responses.text` of the first header item
matching the configured id with a non-blank text. -/
def headerTitleSpec (fid : String) (items : List Item) : Option String :=
  (items.find? (itemTitleOk fid)).bind (fun it => it.responses.bind (fun r => r.text))

/-- Filename resolution as the amended claim states it: the document name
(slashes replaced) when the configured id is the well-known audit-title id
and `audit_data.name` is present and non-empty; the audit id when that name
is present but empty; otherwise the first matching non-blank header title;
otherwise the audit id. -/
def resolveSpecAmended (D : AuditJson) (fid : String) : String :=
  if fid = AUDIT_TITLE_ITEM_ID ∧ auditName D ≠ none then
    match auditName D with
    | some n => if n = "" then D.audit_id else pyReplaceSlash n
    | none => D.audit_id
  else
    match headerTitleSpec fid D.header_items with
    | some t => t
    | none => D.audit_id

lemma pyReplaceSlash_empty_iff (s : String) : pyReplaceSlash s = "" ↔ s = "" := by
  obtain ⟨data⟩ := s
  constructor
  · intro h
    have hd : data.map (fun c => if c = '/' then '_' else c) = [] := by
      have : (pyReplaceSlash ⟨data⟩).data = ("" : String).data := by rw [h]
      simpa [pyReplaceSlash] using this
    have hnil : data = [] := List.map_eq_nil_iff.mp hd
    subst hnil
    rfl
  · intro h
    rw [h]
    rfl

lemma findFilenameInHeader_eq_spec (fid : String) (items : List Item) :
    findFilenameInHeader fid items = headerTitleSpec fid items := by
  induction items with
  | nil => rfl
  | cons it rest ih =>
      obtain ⟨iid, m, r, o⟩ := it
      by_cases hid : iid = fid
      · rcases r with _ | ⟨tx, img⟩
        · simpa [findFilenameInHeader, headerTitleSpec, itemTitleOk, hid,
            List.find?_cons] using ih
        · rcases tx with _ | t
          · simpa [findFilenameInHeader, headerTitleSpec, itemTitleOk, hid,
              List.find?_cons] using ih
          · by_cases ht : pyStrip t = ""
            · simpa [findFilenameInHeader, headerTitleSpec, itemTitleOk, hid,
                ht, List.find?_cons] using ih
            · simp [findFilenameInHeader, headerTitleSpec, itemTitleOk, hid,
                ht, List.find?_cons]
      · simpa [findFilenameInHeader, headerTitleSpec, itemTitleOk, hid,
          List.find?_cons] using ih

lemma headerTitleSpec_ne_empty {fid : String} {items : List Item} {t : String}
    (h : headerTitleSpec fid items = some t) : t ≠ "" := by
  unfold headerTitleSpec at h
  rcases hf : items.find? (itemTitleOk fid) with _ | it <;> rw [hf] at h
  · simp at h
  · obtain ⟨r, hr, htx⟩ :=
      Option.bind_eq_some.mp (show it.responses.bind (fun r => r.text) = some t from h)
    have hp : itemTitleOk fid it = true := List.find?_some hf
    unfold itemTitleOk at hp
    rw [hr] at hp
    simp [htx] at hp
    intro hc
    subst hc
    exact hp.2 (by decide)

/-! ## Tabular sink writer (exporter.py lines 1247-1287)

`export_audit_sql` builds the flattened rows, then
`session.bulk_insert_mappings`; a `KeyboardInterrupt` exits, an
`OperationalError` (connection drop) is rolled back and logged, an
`IntegrityError` (duplicate primary key) is rolled back and every row of
the batch is re-applied through `session.merge` (per-row upsert); finally
`session.commit()`.  None of the three handlers re-raises, so no exception
escapes back into `process_audit`.

The session/sink is modelled as a list of rows keyed by a primary key;
a connection drop during the bulk write is an external event, supplied as
the `BulkFault` input. -/

/-- One flattened row bound for the tabular sink, keyed by its primary key. -/
structure Row where
  pk : Nat
  payload : String
deriving DecidableEq, Repr

/-- External behaviour of the transport during the bulk write:
either it works, or the connection drops (`OperationalError`). -/
inductive BulkFault
  | ok
  | connDrop
deriving DecidableEq, Repr

/-- `session.merge` for one row: update the row with the same primary key
if one exists in the sink, otherwise insert the row. -/
def upsertRow (sink : List Row) (r : Row) : List Row :=
  if r.pk ∈ sink.map Row.pk then
    sink.map (fun s => if s.pk = r.pk then r else s)
  else sink ++ [r]

/-- Whether some primary key of the batch already exists in the sink, or is
duplicated inside the batch — exactly when `bulk_insert_mappings` raises a
duplicate-primary-key `IntegrityError`. -/
def bulkConflict (sink rows : List Row) : Prop :=
  (∃ r ∈ rows, r.pk ∈ sink.map Row.pk) ∨ ¬ (rows.map Row.pk).Nodup

instance (sink rows : List Row) : Decidable (bulkConflict sink rows) := by
  unfold bulkConflict; infer_instance

/-- Observable result of one `export_audit_sql` call. -/
structure SqlResult where
  sink : List Row
  viaBulk : Nat
  viaMerge : Nat
  rolledBack : Bool
  errorLogged : Bool
  escaped : Bool
deriving DecidableEq, Repr

/-- Embedding of `export_audit_sql` (lines 1270-1287): the bulk insert with
its `OperationalError` and `IntegrityError` handlers, followed by
`session.commit()`. -/
def export_audit_sql (fault : BulkFault) (sink rows : List Row) : SqlResult :=
  match fault with
  | .connDrop =>
      -- OperationalError: session.rollback(); logger.warning(...); commit is a no-op
      { sink := sink, viaBulk := 0, viaMerge := 0,
        rolledBack := true, errorLogged := true, escaped := false }
  | .ok =>
      if bulkConflict sink rows then
        -- IntegrityError: rollback, then session.merge for every row, then commit
        { sink := rows.foldl upsertRow sink, viaBulk := 0, viaMerge := rows.length,
          rolledBack := true, errorLogged := true, escaped := false }
      else
        -- bulk insert succeeds and is committed
        { sink := sink ++ rows, viaBulk := rows.length, viaMerge := 0,
          rolledBack := false, errorLogged := false, escaped := false }

/-- Primary-key-level view of one upsert. -/
def pkUpsert (ps : List Nat) (p : Nat) : List Nat :=
  if p ∈ ps then ps else ps ++ [p]

lemma upsertRow_map_pk (sink : List Row) (r : Row) :
    (upsertRow sink r).map Row.pk = pkUpsert (sink.map Row.pk) r.pk := by
  unfold upsertRow pkUpsert
  by_cases h : r.pk ∈ sink.map Row.pk <;> simp [h]
  intro s hs
  by_cases hpk : s.pk = r.pk <;> simp [hpk]

lemma foldl_upsertRow_map_pk (rows : List Row) :
    ∀ sink : List Row,
      (rows.foldl upsertRow sink).map Row.pk
        = (rows.map Row.pk).foldl pkUpsert (sink.map Row.pk) := by
  induction rows with
  | nil => intro sink; rfl
  | cons r rest ih =>
      intro sink
      simp [List.foldl_cons, ih, upsertRow_map_pk]

lemma mem_foldl_pkUpsert (qs : List Nat) :
    ∀ (ps : List Nat) (x : Nat),
      x ∈ qs.foldl pkUpsert ps ↔ x ∈ ps ∨ x ∈ qs := by
  induction qs with
  | nil => intro ps x; simp
  | cons q rest ih =>
      intro ps x
      rw [List.foldl_cons, ih]
      unfold pkUpsert
      by_cases h : q ∈ ps
      · rw [if_pos h]
        simp only [List.mem_cons]
        constructor
        · tauto
        · rintro (hx | hx | hx)
          · tauto
          · subst hx; tauto
          · tauto
      · rw [if_neg h]
        simp only [List.mem_append, List.mem_singleton, List.mem_cons]
        tauto

lemma nodup_foldl_pkUpsert (qs : List Nat) :
    ∀ ps : List Nat, ps.Nodup → (qs.foldl pkUpsert ps).Nodup := by
  induction qs with
  | nil => intro ps h; simpa using h
  | cons q rest ih =>
      intro ps h
      rw [List.foldl_cons]
      apply ih
      unfold pkUpsert
      by_cases hq : q ∈ ps
      · simpa [hq] using h
      · simp [hq, List.nodup_append, h]

lemma length_foldl_pkUpsert (ps qs : List Nat) (hps : ps.Nodup)
    (hqs : qs.Nodup) (hsub : ∀ x ∈ ps, x ∈ qs) :
    (qs.foldl pkUpsert ps).length = qs.length := by
  have hnodup : (qs.foldl pkUpsert ps).Nodup := nodup_foldl_pkUpsert qs ps hps
  have hfin : (qs.foldl pkUpsert ps).toFinset = qs.toFinset := by
    ext x
    simp only [List.mem_toFinset, mem_foldl_pkUpsert]
    constructor
    · rintro (hx | hx)
      · exact hsub x hx
      · exact hx
    · intro hx; exact Or.inr hx
  calc (qs.foldl pkUpsert ps).length
      = (qs.foldl pkUpsert ps).toFinset.card :=
        (List.toFinset_card_of_nodup hnodup).symm
    _ = qs.toFinset.card := by rw [hfin]
    _ = qs.length := List.toFinset_card_of_nodup hqs

/-! ## One-time tabular-sink setup (exporter.py lines 1156-1244)

`sql_setup` checks whether the configured table exists; when it does not,
it creates the table if `allow_table_creation == 'true'`, calls
`sys.exit()` if it equals `'false'`, and otherwise asks interactively,
creating the table on a `y...` answer and calling `sys.exit()` on anything
else.  Every non-exit path ends with `setup = 'complete'`.  `sys.exit`
terminates the whole process and is modelled as `none`. -/

/-- Environment consumed by `sql_setup`: whether the table already exists,
the `allow_table_creation` setting (compared as a string by the source),
and the interactive answer. -/
structure SqlEnv where
  tableExists : Bool
  allowTableCreation : String
  userAnswer : String
deriving DecidableEq, Repr

/-- Embedding of the control flow of `sql_setup`: `some ()` is the
`'complete'` setup result, `none` is `sys.exit()`. -/
def sql_setup (env : SqlEnv) : Option Unit :=
  if env.tableExists then some ()
  else if env.allowTableCreation = "true" then some ()
  else if env.allowTableCreation = "false" then none
  else if env.userAnswer.toLower.startsWith "y" then some () else none

/-! ## Per-pass dispatch loop (exporter.py lines 961-1094)

`sync_exports` runs the setup loop (`for export_format in
settings[EXPORT_FORMATS]: if export_format == 'sql': get_started =
sql_setup(...)`) once per pass, before iterating over the discovered
audits; `process_audit` then runs every configured format for one audit
and finally calls `update_sync_marker_file(audit['modified_at'])`.  An
exception escaping a format exporter propagates out of `process_audit`
and aborts the pass with the watermark unchanged for that audit; an audit
that fails the media-readiness gate is skipped without touching the
watermark. -/

/-- A discovered audit as seen by the dispatch loop. -/
structure AuditStub where
  audit_id : String
  modified_at : Int
deriving DecidableEq, Repr

/-- Outcome of invoking one format exporter for one audit: it either
returns normally or raises an exception that escapes `process_audit`. -/
inductive FormatOutcome
  | ok
  | exn
deriving DecidableEq, Repr

/-- One audit together with the outcome of each configured format's
exporter for it (aligned with the format list). -/
structure AuditRun where
  audit : AuditStub
  outcomes : List FormatOutcome
deriving DecidableEq, Repr

/-- The setup loop of `sync_exports`: walk the format list, invoking
`sql_setup` for each `'sql'` entry; `none` models the process exiting
inside `sql_setup`.  On success it returns the number of `sql_setup`
invocations performed. -/
def setup_loop (env : SqlEnv) : List String → Nat → Option Nat
  | [], n => some n
  | f :: rest, n =>
      if f = "sql" then
        match sql_setup env with
        | some _ => setup_loop env rest (n + 1)
        | none => none
      else setup_loop env rest n

/-- The `for export_format in settings[EXPORT_FORMATS]` loop of
`process_audit`: run each format exporter in configuration order,
recording one `(audit_id, format)` export event per completed format and
aborting at the first exporter whose exception escapes. -/
def formats_loop (aid : String) :
    List (String × FormatOutcome) → List (String × String) →
      Except (List (String × String)) (List (String × String))
  | [], ex => .ok ex
  | (f, o) :: rest, ex =>
      match o with
      | .ok => formats_loop aid rest (ex ++ [(aid, f)])
      | .exn => .error ex

/-- Embedding of `process_audit`: the media-readiness gate, the format
loop, then `update_sync_marker_file(audit['modified_at'])`.  The state is
the persisted audit watermark plus the export events so far; `.error`
means an exception escaped and the pass is aborted with that state. -/
def process_audit (now offset : Int) (formats : List String)
    (run : AuditRun) (w : Int) (ex : List (String × String)) :
    Except (Int × List (String × String)) (Int × List (String × String)) :=
  if check_if_media_sync_offset_satisfied offset now run.audit.modified_at then
    match formats_loop run.audit.audit_id (formats.zip run.outcomes) ex with
    | .ok ex1 => .ok (run.audit.modified_at, ex1)
    | .error ex1 => .error (w, ex1)
  else
    .ok (w, ex)

/-- The per-audit loop of `sync_exports`. -/
def audits_loop (now offset : Int) (formats : List String) :
    List AuditRun → Int → List (String × String) →
      Except (Int × List (String × String)) (Int × List (String × String))
  | [], w, ex => .ok (w, ex)
  | run :: rest, w, ex =>
      match process_audit now offset formats run w ex with
      | .ok (w1, ex1) => audits_loop now offset formats rest w1 ex1
      | .error e => .error e

/-- Result of one discovery+export pass. -/
inductive PassOutcome
  | exited
  | aborted (watermark : Int) (exports : List (String × String)) (setupCalls : Nat)
  | completed (watermark : Int) (exports : List (String × String)) (setupCalls : Nat)
deriving DecidableEq, Repr

/-- The audit watermark persisted on disk once the pass is over, given the
watermark `w0` it started from: a `sys.exit` during setup leaves it
untouched, and an aborted pass leaves whatever `process_audit` last wrote. -/
def PassOutcome.finalWatermark : PassOutcome → Int → Int
  | .exited, w0 => w0
  | .aborted w _ _, _ => w
  | .completed w _ _, _ => w

/-- The export events performed by the pass. -/
def PassOutcome.exportsDone : PassOutcome → List (String × String)
  | .exited => []
  | .aborted _ ex _ => ex
  | .completed _ ex _ => ex

/-- How many times the pass invoked `sql_setup`. -/
def PassOutcome.setupCallCount : PassOutcome → Nat
  | .exited => 0
  | .aborted _ _ n => n
  | .completed _ _ n => n

/-- Embedding of the audit-export portion of `sync_exports`: the one-time
setup loop followed by the per-audit loop over the discovered audits,
starting from the persisted watermark `w0`.  (The `actions` formats and
the `pickle`-file pre-check are independent of the audit watermark and are
outside this model.) -/
def sync_exports (env : SqlEnv) (now offset : Int) (formats : List String)
    (runs : List AuditRun) (w0 : Int) : PassOutcome :=
  match setup_loop env formats 0 with
  | none => .exited
  | some n =>
      match audits_loop now offset formats runs w0 [] with
      | .ok (w, ex) => .completed w ex n
      | .error (w, ex) => .aborted w ex n

/-! ## Actions export (exporter.py lines 940-958, 552-563, 418-445)

`export_actions` fetches the actions modified since the actions marker;
when the fetch result is not `None` it saves them (the CSV writer returns
immediately on an empty array, writing nothing) and then writes
`datetime.utcnow()` into the actions sync marker file. -/

/-- One action record; only its `modified_at` matters to the marker. -/
structure ActionRec where
  modified_at : Int
deriving DecidableEq, Repr

/-- Persisted actions state: the actions sync marker and the number of
rows appended to `iauditor_actions.csv`. -/
structure ActionsState where
  marker : Int
  csvRows : Nat
deriving DecidableEq, Repr

/-- Embedding of `save_exported_actions_to_csv_file`: `if not
actions_array: return` writes nothing, otherwise one CSV row is appended
per action. -/
def save_exported_actions_to_csv_file (st : ActionsState)
    (actions_array : List ActionRec) : ActionsState :=
  if actions_array = [] then st
  else { st with csvRows := st.csvRows + actions_array.length }

/-- Embedding of `export_actions`: when the fetch returns `None` nothing
happens; otherwise the array is saved and the actions sync marker is
overwritten with the current UTC time `now`. -/
def export_actions (fetched : Option (List ActionRec)) (now : Int)
    (st : ActionsState) : ActionsState :=
  match fetched with
  | none => st
  | some actions_array =>
      let st1 := save_exported_actions_to_csv_file st actions_array
      { st1 with marker := now }

/-- How `process_audit` observes one tabular export: as a format exporter
invocation that raised only when an exception escaped `export_audit_sql`. -/
def sqlFormatOutcome (res : SqlResult) : FormatOutcome :=
  if res.escaped then .exn else .ok

/-- Sink already holding the one row whose primary key the batch below
conflicts with. -/
def c6sink : List Row := [⟨1, "old"⟩]

/-- A batch of 50 rows with primary keys 1..50; exactly key 1 conflicts
with `c6sink`. -/
def c6rows : List Row := (List.range 50).map (fun i => ⟨i + 1, "new"⟩)

/-! ## Dispatch-loop lemmas -/

lemma formats_loop_ok (aid : String) (l : List (String × FormatOutcome)) :
    ∀ ex, FormatOutcome.exn ∉ l.map Prod.snd →
      formats_loop aid l ex = .ok (ex ++ l.map (fun p => (aid, p.1))) := by
  induction l with
  | nil => intro ex _; simp [formats_loop]
  | cons p rest ih =>
      intro ex h
      obtain ⟨f, o⟩ := p
      simp only [List.map_cons, List.mem_cons] at h
      push_neg at h
      cases o with
      | ok =>
          rw [show formats_loop aid ((f, FormatOutcome.ok) :: rest) ex
                = formats_loop aid rest (ex ++ [(aid, f)]) from rfl,
            ih (ex ++ [(aid, f)]) h.2]
          simp
      | exn => exact absurd rfl h.1.symm

lemma formats_loop_err (aid : String) (l : List (String × FormatOutcome)) :
    ∀ ex, FormatOutcome.exn ∈ l.map Prod.snd →
      ∃ ex1, formats_loop aid l ex = .error ex1 := by
  induction l with
  | nil => intro ex h; simp at h
  | cons p rest ih =>
      intro ex h
      obtain ⟨f, o⟩ := p
      cases o with
      | ok =>
          simp only [List.map_cons, List.mem_cons] at h
          rcases h with h | h
          · exact absurd h.symm (by simp)
          · exact ih (ex ++ [(aid, f)]) h
      | exn => exact ⟨ex, rfl⟩

lemma audits_loop_append (now offset : Int) (formats : List String)
    (l1 l2 : List AuditRun) :
    ∀ w ex, audits_loop now offset formats (l1 ++ l2) w ex
      = match audits_loop now offset formats l1 w ex with
        | .ok (w1, ex1) => audits_loop now offset formats l2 w1 ex1
        | .error e => .error e := by
  induction l1 with
  | nil => intro w ex; simp [audits_loop]
  | cons run rest ih =>
      intro w ex
      rw [List.cons_append]
      show (match process_audit now offset formats run w ex with
            | .ok (w1, ex1) => audits_loop now offset formats (rest ++ l2) w1 ex1
            | .error e => .error e) = _
      rcases hpa : process_audit now offset formats run w ex with e | ⟨w1, ex1⟩
      · simp [audits_loop, hpa]
      · simp only [audits_loop, hpa]
        exact ih w1 ex1

lemma audits_loop_good (now offset : Int) (formats : List String)
    (runs : List AuditRun) :
    ∀ w ex,
      (∀ r ∈ runs,
        check_if_media_sync_offset_satisfied offset now r.audit.modified_at = true ∧
        FormatOutcome.exn ∉ (formats.zip r.outcomes).map Prod.snd) →
      ∃ ex1, audits_loop now offset formats runs w ex
        = .ok ((runs.map (fun r => r.audit.modified_at)).getLastD w, ex1) := by
  induction runs with
  | nil => intro w ex _; exact ⟨ex, rfl⟩
  | cons run rest ih =>
      intro w ex h
      obtain ⟨hgate, hok⟩ := h run (by simp)
      have hstep : process_audit now offset formats run w ex
          = .ok (run.audit.modified_at,
              ex ++ (formats.zip run.outcomes).map (fun p => (run.audit.audit_id, p.1))) := by
        unfold process_audit
        rw [hgate]
        simp only [if_true]
        rw [formats_loop_ok run.audit.audit_id (formats.zip run.outcomes) ex hok]
      obtain ⟨ex1, hrest⟩ := ih run.audit.modified_at
        (ex ++ (formats.zip run.outcomes).map (fun p => (run.audit.audit_id, p.1)))
        (fun r hr => h r (by simp [hr]))
      refine ⟨ex1, ?_⟩
      show (match process_audit now offset formats run w ex with
            | .ok (w1, ex1) => audits_loop now offset formats rest w1 ex1
            | .error e => .error e) = _
      rw [hstep]
      simp only []
      rw [hrest, List.map_cons, List.getLastD_cons]

/-! ## Claim theorems -/

/-- C3, counterexample: the claim says the readiness gate skips exactly when
the elapsed time is strictly less than the offset; but at elapsed time
exactly equal to the offset (here 600 s elapsed, offset 600) the code
skips the audit even though the elapsed time is not less than the offset. -/
theorem C3_counterexample :
    check_if_media_sync_offset_satisfied 600 600 0 = false
    ∧ ¬ ((600 : Int) - 0 < 600) := by decide

/-- C3, amended: the readiness gate skips a candidate exactly when the
elapsed wall-clock time since its `modified_at` is less than **or equal
to** the configured media-sync offset; in particular with
`media_sync_offset = 600`, a candidate modified 300 s ago is excluded and
one modified 700 s ago is included. -/
theorem C3_readiness_gate_amended :
    (∀ offset now modified_at : Int,
      check_if_media_sync_offset_satisfied offset now modified_at = false
        ↔ now - modified_at ≤ offset)
    ∧ (∀ now : Int, check_if_media_sync_offset_satisfied 600 now (now - 300) = false)
    ∧ (∀ now : Int, check_if_media_sync_offset_satisfied 600 now (now - 700) = true) := by
  refine ⟨?_, ?_, ?_⟩
  · intro offset now m
    unfold check_if_media_sync_offset_satisfied
    by_cases h : now - m > offset
    · simp [h]; omega
    · simp [h]; omega
  · intro now
    unfold check_if_media_sync_offset_satisfied
    have h : ¬ (now - (now - 300) > 600) := by omega
    simp [h]
  · intro now
    unfold check_if_media_sync_offset_satisfied
    have h : now - (now - 700) > 600 := by omega
    simp [h]

/-- C5: the media locator returns, in document order over
`header_items ++ items`, one `(media_id, extension)` entry per media
reference found in each item's `media` collection, `responses.image`
descriptor and `options.media` descriptor (extension defaulting to `jpg`),
without suppressing duplicates; in particular the number of entries is the
sum over all items of the number of references each item carries, so an
item contributing to more than one source yields more than one entry. -/
theorem C5_media_locator (D : AuditJson) :
    get_media_from_audit D = ((D.header_items ++ D.items).map itemMediaSpec).flatten
    ∧ (get_media_from_audit D).length
        = ((D.header_items ++ D.items).map (fun it => (itemMediaSpec it).length)).sum := by
  have h1 : get_media_from_audit D
      = ((D.header_items ++ D.items).map itemMediaSpec).flatten := by
    unfold get_media_from_audit
    rw [foldl_media_loop_body]
    rfl
  refine ⟨h1, ?_⟩
  rw [h1, List.length_flatten, List.map_map]
  rfl

/-- C8, counterexample: after an actions batch whose only record was
modified at time 100 is exported at current time 200, the persisted
actions watermark is 200, not the record's modification timestamp 100. -/
theorem C8_counterexample :
    (export_actions (some [⟨100⟩]) 200 ⟨0, 0⟩).marker = 200
    ∧ (200 : Int) ≠ 100 := by decide

/-- C8, amended: after each successfully exported actions batch, the
persisted actions watermark equals the current UTC wall-clock time taken
at the end of the export — not the exported records' own modification
timestamps — while one CSV row is appended per exported action. -/
theorem C8_actions_marker_amended (actions_array : List ActionRec)
    (now : Int) (st : ActionsState) :
    (export_actions (some actions_array) now st).marker = now
    ∧ (export_actions (some actions_array) now st).csvRows
        = st.csvRows + actions_array.length := by
  constructor
  · rfl
  · unfold export_actions save_exported_actions_to_csv_file
    by_cases h : actions_array = []
    · simp [h]
    · simp [h]

/-- C9: a pass over an empty discovery result attempts no per-audit export
and leaves the persisted audit watermark unchanged. -/
theorem C9_empty_discovery (env : SqlEnv) (now offset : Int)
    (formats : List String) (w0 : Int) :
    (sync_exports env now offset formats [] w0).finalWatermark w0 = w0
    ∧ (sync_exports env now offset formats [] w0).exportsDone = [] := by
  unfold sync_exports
  rcases h : setup_loop env formats 0 with _ | n <;>
    simp [h, audits_loop, PassOutcome.finalWatermark, PassOutcome.exportsDone]

/-- C10: whenever the actions fetch returns a non-`None` array — including
an empty one — the actions export writes the current UTC time `now` into
the actions sync marker, so the marker advances even when zero rows were
written; the state is left unchanged only when the fetch returns `None`. -/
theorem C10_actions_marker_on_fetch (now : Int) (st : ActionsState) :
    (∀ actions_array : List ActionRec,
      (export_actions (some actions_array) now st).marker = now)
    ∧ (export_actions (some []) now st).csvRows = st.csvRows
    ∧ export_actions none now st = st := by
  refine ⟨fun _ => rfl, rfl, rfl⟩

lemma resolve_header_path (D : AuditJson) (fid : String) :
    (match findFilenameInHeader fid D.header_items with
     | some s => if s = "" then D.audit_id else s
     | none => D.audit_id)
    = match headerTitleSpec fid D.header_items with
      | some t => t
      | none => D.audit_id := by
  rw [findFilenameInHeader_eq_spec]
  rcases h : headerTitleSpec fid D.header_items with _ | t
  · rfl
  · simp [if_neg (headerTitleSpec_ne_empty h)]

/-- C4, counterexample: with the configured title item id equal to the
well-known audit-title id and `audit_data.name` present but equal to the
empty string, the claim says resolution returns the name with slashes
replaced (the empty string); the code instead falls back to the audit id,
because Python `or` treats the empty string as falsy. -/
theorem C4_counterexample :
    resolveExportFilename
      { audit_id := "audit_1", template_id := "t1",
        header_items := [], items := [],
        audit_data := some { name := some "" } }
      (some AUDIT_TITLE_ITEM_ID) = "audit_1"
    ∧ pyReplaceSlash "" = ""
    ∧ ("audit_1" : String) ≠ "" := by
  refine ⟨by decide, rfl, by decide⟩

/-- C4, amended: export filename resolution returns the document's
`audit_data.name` with `/` replaced by `_` when the configured id equals
the well-known audit-title item id and `audit_data.name` is present **and
non-empty** (when it is present but empty, resolution returns the audit id
without consulting the header items); otherwise the non-blank
`responses.text` of the first header item whose `item_id` matches;
otherwise the audit id. -/
theorem C4_filename_resolution_amended (D : AuditJson) (fid : String) :
    resolveExportFilename D (some fid) = resolveSpecAmended D fid := by
  have hunfold : parse_export_filename D (some fid)
      = if fid = AUDIT_TITLE_ITEM_ID then
          match D.audit_data with
          | some ad =>
              match ad.name with
              | some n => some (pyReplaceSlash n)
              | none => findFilenameInHeader fid D.header_items
          | none => findFilenameInHeader fid D.header_items
        else findFilenameInHeader fid D.header_items := rfl
  unfold resolveExportFilename resolveSpecAmended
  rw [hunfold]
  by_cases hfid : fid = AUDIT_TITLE_ITEM_ID
  · rw [if_pos hfid]
    rcases had : D.audit_data with _ | ad
    · have hname : auditName D = none := by simp [auditName, had]
      rw [hname, if_neg (by simp)]
      exact resolve_header_path D fid
    · rcases hnm : ad.name with _ | n
      · have hname : auditName D = none := by simp [auditName, had, hnm]
        rw [hname, if_neg (by simp)]
        simp only [hnm]
        exact resolve_header_path D fid
      · have hname : auditName D = some n := by simp [auditName, had, hnm]
        rw [hname, if_pos (show fid = AUDIT_TITLE_ITEM_ID ∧ (some n : Option String) ≠ none
          from ⟨hfid, by simp⟩)]
        simp only [hnm]
        by_cases hn : n = ""
        · subst hn
          rw [if_pos (show pyReplaceSlash "" = "" from rfl), if_pos rfl]
        · rw [if_neg ((not_congr (pyReplaceSlash_empty_iff n)).mpr hn), if_neg hn]
  · rw [if_neg hfid,
      if_neg (show ¬ (fid = AUDIT_TITLE_ITEM_ID ∧ auditName D ≠ none)
        from fun h => hfid h.1)]
    exact resolve_header_path D fid

/-- C2, counterexample: an audit (modified at 100) whose sql export hits a
connection drop (`OperationalError`) still ends with `process_audit`
advancing the watermark from 0 to 100, because the handler swallows the
error — contradicting the claim that the watermark is not advanced for
that audit. -/
theorem C2_counterexample :
    (export_audit_sql .connDrop [] [⟨1, "r"⟩]).escaped = false
    ∧ process_audit 1000 600 ["sql"]
        ⟨⟨"a1", 100⟩, [sqlFormatOutcome (export_audit_sql .connDrop [] [⟨1, "r"⟩])]⟩ 0 []
        = .ok (100, [("a1", "sql")])
    ∧ (100 : Int) ≠ 0 := by
  refine ⟨rfl, rfl, by decide⟩

/-- C2, amended: when the tabular (sql) export of an audit raises a
connection-drop `OperationalError` during the bulk write, the in-flight
transaction is rolled back, the error is logged and no rows reach the
sink; but the error is swallowed rather than re-raised, so `process_audit`
completes and still advances the audit watermark to that audit's
`modified_at` — the audit is therefore *not* retried on the next pass. -/
theorem C2_connection_drop_amended (sink rows : List Row) (a : AuditStub)
    (now offset w : Int) (ex : List (String × String))
    (hgate : check_if_media_sync_offset_satisfied offset now a.modified_at = true) :
    (export_audit_sql .connDrop sink rows).sink = sink
    ∧ (export_audit_sql .connDrop sink rows).rolledBack = true
    ∧ (export_audit_sql .connDrop sink rows).errorLogged = true
    ∧ (export_audit_sql .connDrop sink rows).escaped = false
    ∧ process_audit now offset ["sql"]
        ⟨a, [sqlFormatOutcome (export_audit_sql .connDrop sink rows)]⟩ w ex
        = .ok (a.modified_at, ex ++ [(a.audit_id, "sql")]) := by
  refine ⟨rfl, rfl, rfl, rfl, ?_⟩
  unfold process_audit
  rw [hgate]
  simp only [if_true]
  rfl

/-- C2, witness for the amended theorem at a concrete input. -/
theorem C2_witness :
    check_if_media_sync_offset_satisfied 600 1000 100 = true
    ∧ ((export_audit_sql .connDrop [] [⟨2, "s"⟩]).sink = []
       ∧ (export_audit_sql .connDrop [] [⟨2, "s"⟩]).rolledBack = true
       ∧ (export_audit_sql .connDrop [] [⟨2, "s"⟩]).errorLogged = true
       ∧ (export_audit_sql .connDrop [] [⟨2, "s"⟩]).escaped = false
       ∧ process_audit 1000 600 ["sql"]
           ⟨⟨"a2", 100⟩, [sqlFormatOutcome (export_audit_sql .connDrop [] [⟨2, "s"⟩])]⟩ 7 []
           = .ok (100, [] ++ [("a2", "sql")])) :=
  ⟨by decide,
   C2_connection_drop_amended [] [⟨2, "s"⟩] ⟨"a2", 100⟩ 1000 600 7 [] (by decide)⟩

set_option maxRecDepth 4000 in
/-- C6, counterexample: for a bulk insert of 50 rows of which exactly one
conflicts on the primary key, the claim says 49 rows go through the bulk
path and 1 through the merge path; in the code the whole bulk insert is
rolled back on the `IntegrityError`, so 0 rows are inserted via the bulk
path and all 50 are re-applied via the per-row merge path (the final row
count of 50 and the absence of an escaping exception do hold). -/
theorem C6_counterexample :
    ¬ ((export_audit_sql .ok c6sink c6rows).viaBulk = 49
       ∧ (export_audit_sql .ok c6sink c6rows).viaMerge = 1)
    ∧ (export_audit_sql .ok c6sink c6rows).viaBulk = 0
    ∧ (export_audit_sql .ok c6sink c6rows).viaMerge = 50
    ∧ (export_audit_sql .ok c6sink c6rows).sink.length = 50
    ∧ (export_audit_sql .ok c6sink c6rows).escaped = false := by
  refine ⟨?_, by decide, by decide, by decide, by decide⟩
  intro h
  exact absurd h.1 (by decide)

/-- C6, amended: when a bulk insert raises a duplicate-primary-key
conflict, the bulk insert is rolled back entirely, so 0 rows are inserted
via the bulk path and every row of the batch is resolved via the slower
per-row merge path; when every pre-existing sink key is covered by the
batch (as in the 1-of-50 duplicate scenario) the final row count in the
sink equals the batch size, and no exception escapes the dispatcher. -/
theorem C6_bulk_conflict_amended (sink rows : List Row)
    (hs : (sink.map Row.pk).Nodup) (hr : (rows.map Row.pk).Nodup)
    (hcov : ∀ s ∈ sink, s.pk ∈ rows.map Row.pk)
    (hconf : bulkConflict sink rows) :
    (export_audit_sql .ok sink rows).viaBulk = 0
    ∧ (export_audit_sql .ok sink rows).viaMerge = rows.length
    ∧ (export_audit_sql .ok sink rows).escaped = false
    ∧ (export_audit_sql .ok sink rows).sink.length = rows.length := by
  have hres : export_audit_sql .ok sink rows
      = { sink := rows.foldl upsertRow sink, viaBulk := 0,
          viaMerge := rows.length, rolledBack := true,
          errorLogged := true, escaped := false } := by
    unfold export_audit_sql
    rw [if_pos hconf]
  refine ⟨by rw [hres], by rw [hres], by rw [hres], ?_⟩
  rw [hres]
  show (rows.foldl upsertRow sink).length = rows.length
  have hsub : ∀ x ∈ sink.map Row.pk, x ∈ rows.map Row.pk := by
    intro x hx
    obtain ⟨s, hsm, rfl⟩ := List.mem_map.mp hx
    exact hcov s hsm
  calc (rows.foldl upsertRow sink).length
      = ((rows.foldl upsertRow sink).map Row.pk).length := (List.length_map _ _).symm
    _ = ((rows.map Row.pk).foldl pkUpsert (sink.map Row.pk)).length := by
        rw [foldl_upsertRow_map_pk]
    _ = (rows.map Row.pk).length :=
        length_foldl_pkUpsert (sink.map Row.pk) (rows.map Row.pk) hs hr hsub
    _ = rows.length := List.length_map _ _

set_option maxRecDepth 4000 in
/-- C6, witness for the amended theorem on the concrete 1-of-50 scenario. -/
theorem C6_witness :
    ((c6sink.map Row.pk).Nodup ∧ (c6rows.map Row.pk).Nodup
      ∧ (∀ s ∈ c6sink, s.pk ∈ c6rows.map Row.pk) ∧ bulkConflict c6sink c6rows)
    ∧ ((export_audit_sql .ok c6sink c6rows).viaBulk = 0
       ∧ (export_audit_sql .ok c6sink c6rows).viaMerge = c6rows.length
       ∧ (export_audit_sql .ok c6sink c6rows).escaped = false
       ∧ (export_audit_sql .ok c6sink c6rows).sink.length = c6rows.length) :=
  ⟨⟨by decide, by decide, by decide, by decide⟩,
   C6_bulk_conflict_amended c6sink c6rows (by decide) (by decide) (by decide) (by decide)⟩

lemma setup_loop_count (env : SqlEnv) (h : sql_setup env ≠ none) :
    ∀ (formats : List String) (k : Nat),
      setup_loop env formats k = some (k + formats.count "sql") := by
  intro formats
  induction formats with
  | nil => intro k; simp [setup_loop]
  | cons f rest ih =>
      intro k
      by_cases hf : f = "sql"
      · rcases hsetup : sql_setup env with _ | u
        · exact absurd hsetup h
        · subst hf
          rw [show setup_loop env ("sql" :: rest) k
                = (match sql_setup env with
                   | some _ => setup_loop env rest (k + 1)
                   | none => none) from by simp [setup_loop]]
          rw [hsetup, ih (k + 1), List.count_cons]
          simp
          omega
      · rw [show setup_loop env (f :: rest) k = setup_loop env rest k from by
          simp [setup_loop, hf]]
        rw [ih k, List.count_cons]
        simp [hf]

/-- C7, counterexample: with a failing tabular setup (table missing,
table creation disallowed) and formats `["sql", "pdf"]`, the whole run
exits inside `sql_setup` and **no** format runs — not even the `pdf`
export of the discovered audit — whereas the same pass with a working
setup performs both the `sql` and the `pdf` export.  This contradicts the
claim that a setup failure is fatal only for the tabular export while the
other configured formats still run. -/
theorem C7_counterexample :
    sync_exports ⟨false, "false", "n"⟩ 10000 600 ["sql", "pdf"]
        [⟨⟨"a1", 100⟩, [.ok, .ok]⟩] 0 = .exited
    ∧ (sync_exports ⟨false, "false", "n"⟩ 10000 600 ["sql", "pdf"]
        [⟨⟨"a1", 100⟩, [.ok, .ok]⟩] 0).exportsDone = []
    ∧ (sync_exports ⟨true, "false", "n"⟩ 10000 600 ["sql", "pdf"]
        [⟨⟨"a1", 100⟩, [.ok, .ok]⟩] 0).exportsDone
        = [("a1", "sql"), ("a1", "pdf")] :=
  ⟨rfl, rfl, rfl⟩

/-- C7, amended: the one-time tabular-sink setup runs once per pass —
`sql_setup` is invoked once per `'sql'` entry of the format list,
independently of how many audits are discovered — but a setup failure
calls `sys.exit` and terminates the entire run, so no format of any audit
runs after a failed setup (rather than being fatal only for the tabular
export). -/
theorem C7_sql_setup_amended :
    (∀ (env : SqlEnv) (formats : List String), sql_setup env ≠ none →
      setup_loop env formats 0 = some (formats.count "sql"))
    ∧ (∀ (env : SqlEnv) (now offset : Int) (formats : List String)
        (runs : List AuditRun) (w0 : Int) (n : Nat),
        setup_loop env formats 0 = some n →
        (sync_exports env now offset formats runs w0).setupCallCount = n)
    ∧ (∀ (env : SqlEnv) (now offset : Int) (formats : List String)
        (runs : List AuditRun) (w0 : Int),
        setup_loop env formats 0 = none →
        sync_exports env now offset formats runs w0 = .exited) := by
  refine ⟨?_, ?_, ?_⟩
  · intro env formats h
    simpa using setup_loop_count env h formats 0
  · intro env now offset formats runs w0 n h
    unfold sync_exports
    rw [h]
    rcases hloop : audits_loop now offset formats runs w0 [] with ⟨w, ex⟩ | ⟨w, ex⟩ <;>
      simp [PassOutcome.setupCallCount]
  · intro env now offset formats runs w0 h
    unfold sync_exports
    rw [h]

/-- C7, witness for the amended theorem at concrete inputs: a working
setup is invoked exactly once for `["sql", "pdf"]` regardless of the
audits, and a failing setup exits the run. -/
theorem C7_witness :
    (sql_setup ⟨true, "z", "n"⟩ ≠ none
      ∧ setup_loop ⟨true, "z", "n"⟩ ["sql", "pdf"] 0 = some 1)
    ∧ (setup_loop ⟨false, "false", "n"⟩ ["sql", "pdf"] 0 = none
      ∧ sync_exports ⟨false, "false", "n"⟩ 0 0 ["sql", "pdf"]
          [⟨⟨"b1", 5⟩, [.ok, .ok]⟩] 0 = .exited) :=
  ⟨⟨by decide, C7_sql_setup_amended.1 ⟨true, "z", "n"⟩ ["sql", "pdf"] (by decide)⟩,
   ⟨by decide, C7_sql_setup_amended.2.2 ⟨false, "false", "n"⟩ 0 0 ["sql", "pdf"]
      [⟨⟨"b1", 5⟩, [.ok, .ok]⟩] 0 (by decide)⟩⟩

/-- C1: over a pass whose discovered audits (modification times strictly
increasing, processed in that order) are all media-ready, the watermark is
written only after all configured export formats of an audit have
completed: a fully successful pass leaves the persisted watermark equal to
the last audit's `modified_at` (`getLastD _ w0`, i.e. `tn` for a non-empty
pass), and a pass aborted by an exception inside some format of the next
audit — after fully exporting the first `k` audits — leaves the watermark
at `t k`, never past an audit whose formats did not all complete. -/
theorem C1_watermark_after_full_export (env : SqlEnv) (now offset w0 : Int)
    (formats : List String) (good : List AuditRun) (n : Nat)
    (hsetup : setup_loop env formats 0 = some n)
    (_hsorted : good.Chain' (fun a b => a.audit.modified_at < b.audit.modified_at))
    (hgood : ∀ r ∈ good,
      check_if_media_sync_offset_satisfied offset now r.audit.modified_at = true ∧
      FormatOutcome.exn ∉ (formats.zip r.outcomes).map Prod.snd) :
    (sync_exports env now offset formats good w0).finalWatermark w0
      = (good.map (fun r => r.audit.modified_at)).getLastD w0
    ∧ ∀ (bad : AuditRun) (rest : List AuditRun),
        check_if_media_sync_offset_satisfied offset now bad.audit.modified_at = true →
        FormatOutcome.exn ∈ (formats.zip bad.outcomes).map Prod.snd →
        (sync_exports env now offset formats (good ++ bad :: rest) w0).finalWatermark w0
          = (good.map (fun r => r.audit.modified_at)).getLastD w0 := by
  obtain ⟨ex1, h1⟩ := audits_loop_good now offset formats good w0 [] hgood
  constructor
  · unfold sync_exports
    rw [hsetup, h1]
    rfl
  · intro bad rest hbgate hbexn
    obtain ⟨ex2, h2⟩ :=
      formats_loop_err bad.audit.audit_id (formats.zip bad.outcomes) ex1 hbexn
    have hpa : process_audit now offset formats bad
        ((good.map (fun r => r.audit.modified_at)).getLastD w0) ex1
        = .error ((good.map (fun r => r.audit.modified_at)).getLastD w0, ex2) := by
      unfold process_audit
      rw [hbgate]
      simp only [if_true]
      rw [h2]
    have hfull : audits_loop now offset formats (good ++ bad :: rest) w0 []
        = .error ((good.map (fun r => r.audit.modified_at)).getLastD w0, ex2) := by
      rw [audits_loop_append, h1]
      show (match process_audit now offset formats bad
              ((good.map (fun r => r.audit.modified_at)).getLastD w0) ex1 with
            | .ok (w1, e1) => audits_loop now offset formats rest w1 e1
            | .error e => .error e) = _
      rw [hpa]
    unfold sync_exports
    rw [hsetup, hfull]
    rfl

/-- C1, witness: a two-audit pass (times 10 < 20, both media-ready, one
always-succeeding `pdf` format) ends with watermark 20, and aborting on a
third audit whose `pdf` exporter raises leaves the watermark at 20. -/
theorem C1_witness :
    (setup_loop ⟨true, "z", "n"⟩ ["pdf"] 0 = some 0
     ∧ ([⟨⟨"a1", 10⟩, [.ok]⟩, ⟨⟨"a2", 20⟩, [.ok]⟩] : List AuditRun).Chain'
         (fun a b => a.audit.modified_at < b.audit.modified_at)
     ∧ (∀ r ∈ ([⟨⟨"a1", 10⟩, [.ok]⟩, ⟨⟨"a2", 20⟩, [.ok]⟩] : List AuditRun),
         check_if_media_sync_offset_satisfied 600 1000 r.audit.modified_at = true ∧
         FormatOutcome.exn ∉ ((["pdf"].zip r.outcomes).map Prod.snd)))
    ∧ ((sync_exports ⟨true, "z", "n"⟩ 1000 600 ["pdf"]
          [⟨⟨"a1", 10⟩, [.ok]⟩, ⟨⟨"a2", 20⟩, [.ok]⟩] 0).finalWatermark 0
        = (([⟨⟨"a1", 10⟩, [.ok]⟩, ⟨⟨"a2", 20⟩, [.ok]⟩] : List AuditRun).map
            (fun r => r.audit.modified_at)).getLastD 0
       ∧ ∀ (bad : AuditRun) (rest : List AuditRun),
          check_if_media_sync_offset_satisfied 600 1000 bad.audit.modified_at = true →
          FormatOutcome.exn ∈ ((["pdf"].zip bad.outcomes).map Prod.snd) →
          (sync_exports ⟨true, "z", "n"⟩ 1000 600 ["pdf"]
              ([⟨⟨"a1", 10⟩, [.ok]⟩, ⟨⟨"a2", 20⟩, [.ok]⟩] ++ bad :: rest) 0).finalWatermark 0
            = (([⟨⟨"a1", 10⟩, [.ok]⟩, ⟨⟨"a2", 20⟩, [.ok]⟩] : List AuditRun).map
                (fun r => r.audit.modified_at)).getLastD 0) :=
  ⟨⟨by decide, by norm_num [List.chain'_cons], by decide⟩,
   C1_watermark_after_full_export ⟨true, "z", "n"⟩ 1000 600 0 ["pdf"]
     [⟨⟨"a1", 10⟩, [.ok]⟩, ⟨⟨"a2", 20⟩, [.ok]⟩] 0
     (by decide) (by norm_num [List.chain'_cons]) (by decide)⟩

end Exporter
